import Mathlib

/-!
# Verification of the `appdate` date-value library

Shallow embedding of the `appdate` TypeScript sources (`src/unnamed/part_000`,
`src/src/index2.ts`) in Lean 4, together with theorems settling the frozen
claims about the natural-language specification.

Modelling conventions:

* A dayjs instant is either a valid moment (a calendar day plus a
  time-of-day), the shared `INVALID_DATE` sentinel object (`dayjs('')`,
  allocated once at module load), or a fresh invalid dayjs object allocated
  by an engine call such as `dayjs.utc(<garbage>)`.  Distinguishing the
  sentinel from fresh invalid objects models JavaScript reference identity,
  which claim C7 is about.
* A valid moment stores the calendar day as a day count since 1970-01-01
  (in the process timezone) plus minutes past midnight.  `dayjs#day()`
  (Sunday = 0 … Saturday = 6) is `(epochDay + 4) % 7` because 1970-01-01
  was a Thursday (= 4).  `dayjs#day()` on an invalid date is `NaN`, which
  is modelled by `none`; `[1..5].includes(NaN)` is `false`.
* `add(1,'day')` on an invalid dayjs value yields an invalid value again.
* Timezone-offset projection (`utc()`) is not modelled; no claim depends on
  the rendered time of a *valid* date in UTC.
-/

/-- A valid dayjs moment: `epochDay` counts calendar days since 1970-01-01
in the process timezone; `minuteOfDay` is minutes past local midnight. -/
structure Moment where
  epochDay : Int
  minuteOfDay : Nat
  deriving DecidableEq, Repr

/-- A dayjs value: valid, the shared `INVALID_DATE` sentinel (the module-level
`const INVALID_DATE = dayjs('')`), or a fresh invalid object allocated by a
later engine call (reference-distinct from the sentinel). -/
inductive DayjsVal where
  | valid (m : Moment)
  | invalidSentinel
  | invalidFresh
  deriving DecidableEq, Repr

/-- `const INVALID_DATE = dayjs('')` — the single shared invalid object. -/
def INVALID_DATE : DayjsVal := .invalidSentinel

/-- `dayjs#isValid()`. -/
def DayjsVal.isValid : DayjsVal → Bool
  | .valid _ => true
  | _ => false

/-- `dayjs#day()`: weekday with Sunday = 0; `NaN` (here `none`) when invalid. -/
def DayjsVal.day : DayjsVal → Option Nat
  | .valid m => some ((m.epochDay + 4) % 7).toNat
  | _ => none

/-- `dayjs#add(n, 'day')`: shifts the calendar day; invalid stays invalid. -/
def DayjsVal.addDays : DayjsVal → Int → DayjsVal
  | .valid m, n => .valid { m with epochDay := m.epochDay + n }
  | .invalidSentinel, _ => .invalidSentinel
  | .invalidFresh, _ => .invalidFresh

/-- `const WORKING_DAYS = [1, 2, 3, 4, 5]` (Monday … Friday). -/
def WORKING_DAYS : List Nat := [1, 2, 3, 4, 5]

namespace WorkingDaysCalculator

/-- `isWorkingDay(): boolean { return WORKING_DAYS.includes(this.date.day()) }`.
`day()` of an invalid date is `NaN` and `includes(NaN)` is `false`, hence the
`none` branch. -/
def isWorkingDay (d : DayjsVal) : Bool :=
  match d.day with
  | some w => WORKING_DAYS.contains w
  | none => false

/-- `nextWorkingDay()`: advance one day at a time until `isWorkingDay` holds.
The source (recursive in `part_000`, a `while` loop in `index2.ts`) is not
structurally terminating, so the embedding counts each one-day advancement
as one unit of fuel; `none` means the computation performs more than `fuel`
one-day advancements (in particular, `none` for every fuel means the source
diverges). -/
def nextWorkingDayFuel : Nat → DayjsVal → Option DayjsVal
  | 0, _ => none
  | fuel + 1, d =>
    let tomorrow := d.addDays 1
    if isWorkingDay tomorrow then some tomorrow else nextWorkingDayFuel fuel tomorrow

/-- `previousWorkingDay()`: symmetric, stepping backward. -/
def previousWorkingDayFuel : Nat → DayjsVal → Option DayjsVal
  | 0, _ => none
  | fuel + 1, d =>
    let yesterday := d.addDays (-1)
    if isWorkingDay yesterday then some yesterday
    else previousWorkingDayFuel fuel yesterday

end WorkingDaysCalculator

/-! ## Calendar arithmetic

The calendar-engine conversion between `YYYY-MM-DD` calendar dates and day
counts since 1970-01-01 (proleptic Gregorian, as in JavaScript `Date`). -/

/-- Gregorian leap-year rule (as implemented by the engine's `Date`). -/
def isLeapYear (y : Int) : Bool :=
  (y % 4 = 0 && y % 100 != 0) || y % 400 = 0

/-- Number of days of month `m` (1-based) in year `y`. -/
def daysInMonth (y : Int) (m : Nat) : Nat :=
  match m with
  | 1 => 31 | 3 => 31 | 5 => 31 | 7 => 31 | 8 => 31 | 10 => 31 | 12 => 31
  | 4 => 30 | 6 => 30 | 9 => 30 | 11 => 30
  | 2 => if isLeapYear y then 29 else 28
  | _ => 0

/-- Day count since 1970-01-01 of the calendar date `y-m-d`
(standard civil-from-days algorithm, month and day 1-based). -/
def daysFromCivil (y : Int) (m d : Nat) : Int :=
  let y' : Int := if m ≤ 2 then y - 1 else y
  let era : Int := (if 0 ≤ y' then y' else y' - 399) / 400
  let yoe : Nat := (y' - era * 400).toNat
  let mp : Nat := (m + 9) % 12
  let doy : Nat := (153 * mp + 2) / 5 + d - 1
  let doe : Nat := yoe * 365 + yoe / 4 - yoe / 100 + doy
  era * 146097 + (doe : Int) - 719468

/-- Inverse of `daysFromCivil`: calendar date `(y, m, d)` of a day count. -/
def civilFromDays (z : Int) : Int × Nat × Nat :=
  let z' : Int := z + 719468
  let era : Int := (if 0 ≤ z' then z' else z' - 146096) / 146097
  let doe : Nat := (z' - era * 146097).toNat
  let yoe : Nat := (doe - doe / 1460 + doe / 36524 - doe / 146096) / 365
  let y : Int := (yoe : Int) + era * 400
  let doy : Nat := doe - (365 * yoe + yoe / 4 - yoe / 100)
  let mp : Nat := (5 * doy + 2) / 153
  let d : Nat := doy - (153 * mp + 2) / 5 + 1
  let m : Nat := if mp < 10 then mp + 3 else mp - 9
  (if m ≤ 2 then y + 1 else y, m, d)

/-! ## Strict `YYYY-MM-DD` parsing (`isDateString`, `DateParser.fromDateString`) -/

/-- Numeric value of a decimal digit character. -/
def digitVal (c : Char) : Nat := c.toNat - 48

/-- The decimal digit character for `n ≤ 9`. -/
def digitChar (n : Nat) : Char := Char.ofNat (n + 48)

/-- Two-digit zero-padded rendering, as a character list. -/
def pad2chars (n : Nat) : List Char := [digitChar (n / 10 % 10), digitChar (n % 10)]

/-- Four-digit zero-padded rendering, as a character list. -/
def pad4chars (n : Nat) : List Char :=
  [digitChar (n / 1000 % 10), digitChar (n / 100 % 10),
   digitChar (n / 10 % 10), digitChar (n % 10)]

/-- The calendar engine's strict parse `dayjs(s, 'YYYY-MM-DD', true)`:
the string must be exactly 4 digits, `'-'`, 2 digits, `'-'`, 2 digits —
wrong separators, wrong digit counts or trailing characters all fail —
and in strict mode the parsed fields must denote a real calendar date
(month 1–12, day within the month's length for that year). -/
def parseStrictDate (s : String) : Option (Nat × Nat × Nat) :=
  match s.data with
  | [y1, y2, y3, y4, h1, m1, m2, h2, d1, d2] =>
    if y1.isDigit && y2.isDigit && y3.isDigit && y4.isDigit
        && h1 = '-' && h2 = '-'
        && m1.isDigit && m2.isDigit && d1.isDigit && d2.isDigit then
      let y := digitVal y1 * 1000 + digitVal y2 * 100 + digitVal y3 * 10 + digitVal y4
      let m := digitVal m1 * 10 + digitVal m2
      let d := digitVal d1 * 10 + digitVal d2
      if 1 ≤ m && m ≤ 12 && 1 ≤ d && d ≤ daysInMonth (y : Int) m then
        some (y, m, d)
      else none
    else none
  | _ => none

/-- `isDateString(date)`: `if (!date) return false;
return dayjs(date, 'YYYY-MM-DD', true).isValid()`. -/
def isDateString (date : String) : Bool :=
  if date = "" then false else (parseStrictDate date).isSome

/-- `dayjs.tz(date, timezone)` applied to a string that passed the strict
`YYYY-MM-DD` check: midnight of that calendar day in the process zone. -/
def dayjsTzOfDateString (date : String) : DayjsVal :=
  match parseStrictDate date with
  | some (y, m, d) => .valid ⟨daysFromCivil (y : Int) m d, 0⟩
  | none => INVALID_DATE

namespace DateParser

/-- `DateParser.fromDateString(date)`: `if (!this.isValidDateString(date))
return INVALID_DATE; return dayjs.tz(date, TimezoneManager.getTimezone())`.
(`part_000`'s constructor path is the same guard followed by the same
`dayjs.tz` call inside `try/catch`.) -/
def fromDateString (date : String) : DayjsVal :=
  if !isDateString date then INVALID_DATE else dayjsTzOfDateString date

end DateParser

/-- The claim's own wording of an exact strict `YYYY-MM-DD` calendar date:
a 4-digit year, `'-'`, a 2-digit month 01–12, `'-'`, and a 2-digit day valid
for that month and year (leap years included), with no extra characters.
Stated over the characters of the string, to be compared with the
source-embedded parser. -/
def specExactCalendarDate (s : String) : Prop :=
  ∃ y m d : Nat, y ≤ 9999 ∧ 1 ≤ m ∧ m ≤ 12 ∧ 1 ≤ d ∧ d ≤ daysInMonth (y : Int) m ∧
    s.data = pad4chars y ++ ['-'] ++ pad2chars m ++ ['-'] ++ pad2chars d

/-! ## The remaining parser entry points (`DateParser`, claims C7) -/

/-- Lenient `HH:mm` parse of `dayjs.tz(time, 'HH:mm', tz)`: one- or two-digit
hour, `':'`, two-digit minute; result is minutes past midnight. -/
def parseLocalTime (s : String) : Option Nat :=
  match s.data with
  | [h1, h2, c, m1, m2] =>
    if h1.isDigit && h2.isDigit && c = ':' && m1.isDigit && m2.isDigit then
      let h := digitVal h1 * 10 + digitVal h2
      let mi := digitVal m1 * 10 + digitVal m2
      if h ≤ 23 && mi ≤ 59 then some (h * 60 + mi) else none
    else none
  | [h1, c, m1, m2] =>
    if h1.isDigit && c = ':' && m1.isDigit && m2.isDigit then
      let h := digitVal h1
      let mi := digitVal m1 * 10 + digitVal m2
      if mi ≤ 59 then some (h * 60 + mi) else none
    else none
  | _ => none

/-- `HH:mm:ss` plus a `+HH:mm` / `-HH:mm` / `Z` offset — the engine parse of
`dayjs.utc(time, 'HH:mm:ssZ')`; result is minutes past midnight, UTC. -/
def parseUtcTime (s : String) : Option Nat :=
  match s.data with
  | [h1, h2, c1, m1, m2, c2, s1, s2, sign, o1, o2, c3, o3, o4] =>
    if h1.isDigit && h2.isDigit && c1 = ':' && m1.isDigit && m2.isDigit
        && c2 = ':' && s1.isDigit && s2.isDigit
        && (sign = '+' || sign = '-') && o1.isDigit && o2.isDigit && c3 = ':'
        && o3.isDigit && o4.isDigit then
      let h := digitVal h1 * 10 + digitVal h2
      let mi := digitVal m1 * 10 + digitVal m2
      let se := digitVal s1 * 10 + digitVal s2
      if h ≤ 23 && mi ≤ 59 && se ≤ 59 then some (h * 60 + mi) else none
    else none
  | [h1, h2, c1, m1, m2, c2, s1, s2, z] =>
    if h1.isDigit && h2.isDigit && c1 = ':' && m1.isDigit && m2.isDigit
        && c2 = ':' && s1.isDigit && s2.isDigit && z = 'Z' then
      let h := digitVal h1 * 10 + digitVal h2
      let mi := digitVal m1 * 10 + digitVal m2
      let se := digitVal s1 * 10 + digitVal s2
      if h ≤ 23 && mi ≤ 59 && se ≤ 59 then some (h * 60 + mi) else none
    else none
  | _ => none

namespace DateParser

/-- `DateParser.fromLocalTime(time)`: `try { return dayjs.tz(time,
LOCAL_TIME_FORMAT, tz) } catch { return INVALID_DATE }` — a failed parse makes
the inner `tz` conversion throw (dayjs issue 1637) and the catch hands back
the shared sentinel.  `today` is the current calendar day the time string is
anchored to. -/
def fromLocalTime (today : Int) (time : String) : DayjsVal :=
  match parseLocalTime time with
  | some minutes => .valid ⟨today, minutes⟩
  | none => INVALID_DATE

/-- `DateParser.fromUtcString(date) { return dayjs.utc(date) }`: an
unparseable string makes `dayjs.utc` allocate a *fresh* invalid dayjs object
(it never returns the shared `INVALID_DATE`). -/
def fromUtcString (date : String) : DayjsVal :=
  match parseStrictDate date with
  | some (y, m, d) => .valid ⟨daysFromCivil (y : Int) m d, 0⟩
  | none => .invalidFresh

/-- `DateParser.fromUtcTime(time) { return dayjs.utc(time, UTC_TIME_FORMAT) }`:
an unparseable string again yields a fresh invalid dayjs object. -/
def fromUtcTime (today : Int) (time : String) : DayjsVal :=
  match parseUtcTime time with
  | some minutes => .valid ⟨today, minutes⟩
  | none => .invalidFresh

end DateParser

/-- `AppDate.invalid()`: constructs an AppDate holding the shared
`INVALID_DATE` sentinel. -/
def AppDate.invalid : DayjsVal := INVALID_DATE

/-! ## Timezone context (claim C2) -/

/-- `part_000`: `export function setTimezone(timezone) {
localTimezone = timezone; }` — replaces the process-wide zone
unconditionally, with no validation of any kind.  The argument
`localTimezone` is the previous value of the module-level variable;
the result is its new value. -/
def setTimezoneV1 (timezone : String) (localTimezone : String) : String :=
  let _ := localTimezone
  timezone

namespace TimezoneManager

/-- `index2.ts`, `TimezoneManager.isValidTimezone(timezone)`: `try {
dayjs().tz(timezone); return true } catch { return false }`.
`tzResolves` abstracts the calendar engine's timezone database: it answers
whether the trial conversion `dayjs().tz(timezone)` succeeds. -/
def isValidTimezone (tzResolves : String → Bool) (timezone : String) : Bool :=
  tzResolves timezone

/-- `index2.ts`, `TimezoneManager.setTimezone(newTimezone)`: throws
`Invalid timezone: …` when validation fails (before any assignment, so the
stored zone is untouched), otherwise stores the new zone.  The result is the
new value of the private static `timezone` field, or the thrown error. -/
def setTimezone (tzResolves : String → Bool) (newTimezone : String)
    (timezone : String) : Except String String :=
  if !isValidTimezone tzResolves newTimezone then
    .error ("Invalid timezone: " ++ newTimezone)
  else
    let _ := timezone
    .ok newTimezone

end TimezoneManager

/-! ## Locales and the formatter (claims C3, C10) -/

/-- The locales the library loads (`setAppDateLanguage` loads `de-ch`,
`fr-ch` or `en`; plain `de`, `de-at` and `fr` appear in
`getLocalizedInvalidDate`'s switch). -/
inductive AppLocale
  | de | deCh | deAt | fr | frCh | en
  deriving DecidableEq, Repr

/-- `dayjs.locale()`: the active locale's name string. -/
def localeName : AppLocale → String
  | .de => "de"
  | .deCh => "de-ch"
  | .deAt => "de-at"
  | .fr => "fr"
  | .frCh => "fr-ch"
  | .en => "en"

/-- `getLocalizedInvalidDate()` (`index2.ts`): switch on `dayjs.locale()`. -/
def getLocalizedInvalidDate (locale : AppLocale) : String :=
  match localeName locale with
  | "de" | "de-ch" | "de-at" => "Ungültiges Datum"
  | "fr" | "fr-ch" => "Date invalide"
  | _ => "Invalid Date"

/-- The locale's minimal weekday abbreviations (`weekdaysMin`,
Sunday-first as dayjs indexes them). -/
def weekdaysMin : AppLocale → List String
  | .de | .deCh | .deAt => ["So", "Mo", "Di", "Mi", "Do", "Fr", "Sa"]
  | .fr | .frCh => ["di", "lu", "ma", "me", "je", "ve", "sa"]
  | .en => ["Su", "Mo", "Tu", "We", "Th", "Fr", "Sa"]

/-- Whether the locale's short date pattern `L` is `DD.MM.YYYY`
(the `L` of `en` is `MM/DD/YYYY`; the others used here are dotted). -/
def localeLDotted : AppLocale → Bool
  | .en => false
  | _ => true

/-- The format templates the library feeds the engine on the
formatter paths under scrutiny. -/
inductive Pattern
  | HHmm | HHmmssZ | YYYYMMDD | L | ddComma | DDMMdot
  deriving DecidableEq, Repr

/-- Two-digit zero-padded string. -/
def pad2 (n : Nat) : String := ⟨pad2chars n⟩

/-- Four-digit zero-padded string. -/
def pad4 (n : Nat) : String := ⟨pad4chars n⟩

/-- The engine's pattern renderer on a *valid* moment.  (UTC offset
projection is not modelled: `HHmmssZ` renders the stored time with a zero
offset; no claim depends on a valid date's UTC rendering.) -/
def renderPattern (locale : AppLocale) (p : Pattern) (m : Moment) : String :=
  match p with
  | .HHmm => pad2 (m.minuteOfDay / 60) ++ ":" ++ pad2 (m.minuteOfDay % 60)
  | .HHmmssZ => pad2 (m.minuteOfDay / 60) ++ ":" ++ pad2 (m.minuteOfDay % 60) ++ ":00+00:00"
  | .YYYYMMDD =>
    match civilFromDays m.epochDay with
    | (y, mo, d) => pad4 y.toNat ++ "-" ++ pad2 mo ++ "-" ++ pad2 d
  | .L =>
    match civilFromDays m.epochDay with
    | (y, mo, d) =>
      if localeLDotted locale then pad2 d ++ "." ++ pad2 mo ++ "." ++ pad4 y.toNat
      else pad2 mo ++ "/" ++ pad2 d ++ "/" ++ pad4 y.toNat
  | .ddComma => (weekdaysMin locale).getD ((m.epochDay + 4) % 7).toNat "" ++ ", "
  | .DDMMdot =>
    match civilFromDays m.epochDay with
    | (_, mo, d) => pad2 d ++ "." ++ pad2 mo ++ "."

/-- `dayjs#format(template)`: the engine renders a valid date and returns its
fixed (locale-independent) `"Invalid Date"` string on any invalid one. -/
def dayjsFormat (locale : AppLocale) (d : DayjsVal) (p : Pattern) : String :=
  match d with
  | .valid m => renderPattern locale p m
  | _ => "Invalid Date"

/-- `LocalizedFormatOptions`: `includeDayOfWeek?: boolean` — the field may be
absent (`none`), mirroring a JS object without the key. -/
structure LocalizedFormatOptions where
  includeDayOfWeek : Option Bool
  deriving DecidableEq, Repr

namespace DateFormatter

/-- `safeFormat(template)` (`index2.ts`, `DateFormatter`): localized
invalid-date string when the date is invalid, engine render otherwise. -/
def safeFormat (locale : AppLocale) (date : DayjsVal) (template : Pattern) : String :=
  if !date.isValid then getLocalizedInvalidDate locale
  else dayjsFormat locale date template

/-- `toLocalTime() { return this.safeFormat(LOCAL_TIME_FORMAT) }`. -/
def toLocalTime (locale : AppLocale) (date : DayjsVal) : String :=
  safeFormat locale date .HHmm

/-- `toUtcTime()`: explicit invalid check, then `this.date.utc().format(UTC_TIME_FORMAT)`. -/
def toUtcTime (locale : AppLocale) (date : DayjsVal) : String :=
  if !date.isValid then getLocalizedInvalidDate locale
  else dayjsFormat locale date .HHmmssZ

/-- `toDateString()`: explicit invalid check, then `format('YYYY-MM-DD')`. -/
def toDateString (locale : AppLocale) (date : DayjsVal) : String :=
  if !date.isValid then getLocalizedInvalidDate locale
  else dayjsFormat locale date .YYYYMMDD

/-- `toLocalizedDateString(options = {})`: renders `format('L')` with an
optional `format('dd, ')` prefix — note: no validity check, the raw engine
`format` is used.  The outer `Option` is the JS argument being present or
absent; an absent argument defaults to `{}`. -/
def toLocalizedDateString (locale : AppLocale) (date : DayjsVal)
    (options : Option LocalizedFormatOptions) : String :=
  let opts := options.getD ⟨none⟩
  let localized := dayjsFormat locale date .L
  if opts.includeDayOfWeek.getD false then dayjsFormat locale date .ddComma ++ localized
  else localized

/-- `formatShort(options = { includeDayOfWeek: true })`: `format('DD.MM.')`
with the optional weekday prefix — again no validity check. -/
def formatShort (locale : AppLocale) (date : DayjsVal)
    (options : Option LocalizedFormatOptions) : String :=
  let opts := options.getD ⟨some true⟩
  let short := dayjsFormat locale date .DDMMdot
  if opts.includeDayOfWeek.getD false then dayjsFormat locale date .ddComma ++ short
  else short

/-- `formatDateTime(options = { includeDayOfWeek: true })`: localized date,
`", "`, local time. -/
def formatDateTime (locale : AppLocale) (date : DayjsVal)
    (options : Option LocalizedFormatOptions) : String :=
  let opts := options.getD ⟨some true⟩
  let d := toLocalizedDateString locale date (some opts)
  let t := toLocalTime locale date
  d ++ ", " ++ t

end DateFormatter

/-! ## Comparison: `isBetween` (claim C8) -/

/-- Total order key of a valid moment (minutes precision suffices here). -/
def toMinutes (m : Moment) : Int := m.epochDay * 1440 + m.minuteOfDay

/-- `dayjs#isBefore` without a unit: timestamp comparison; any comparison
against an invalid date is `false` (NaN comparisons). -/
def DayjsVal.isBefore (a b : DayjsVal) : Bool :=
  match a, b with
  | .valid ma, .valid mb => toMinutes ma < toMinutes mb
  | _, _ => false

/-- `dayjs#isAfter` without a unit. -/
def DayjsVal.isAfter (a b : DayjsVal) : Bool :=
  match a, b with
  | .valid ma, .valid mb => toMinutes mb < toMinutes ma
  | _, _ => false

/-- `AppDate.minDate() { return AppDate.fromDateString('1900-01-01') }`. -/
def minDate : DayjsVal := DateParser.fromDateString "1900-01-01"

/-- `AppDate.maxDate() { return AppDate.fromDateString('2200-12-31') }`. -/
def maxDate : DayjsVal := DateParser.fromDateString "2200-12-31"

/-- The inclusivity tokens `'()' '(]' '[)' '[]'` (`o` = exclusive paren,
`c` = inclusive bracket; first letter the lower bound, second the upper). -/
inductive Inclusivity
  | oo | oc | co | cc
  deriving DecidableEq, Repr

/-- `isBetween(from = minDate(), to = maxDate(), unit?, inclusivity?)` on the
no-unit path: defaults resolved as in the source (`inclusivity ?? '[)'`), then
the dayjs `isBetween` plugin formula over `isBefore`/`isAfter` (its second
disjunct handles reversed bounds). -/
def isBetweenImpl (self : DayjsVal) (fromArg toArg : Option DayjsVal)
    (inclusivity : Option Inclusivity) : Bool :=
  let f := fromArg.getD minDate
  let t := toArg.getD maxDate
  let i := inclusivity.getD .co
  let exclStart := i = .oo ∨ i = .oc
  let exclEnd := i = .oo ∨ i = .co
  ((if exclStart then self.isAfter f else !(self.isBefore f)) &&
   (if exclEnd then self.isBefore t else !(self.isAfter t))) ||
  ((if exclStart then self.isBefore f else !(self.isAfter f)) &&
   (if exclEnd then self.isAfter t else !(self.isBefore t)))

/-! ## `addWorkingDays` (claim C6) -/

namespace WorkingDaysCalculator

/-- `addWorkingDays(days) { if (days <= 0 || !Number.isInteger(days)) return
this.date; return new WorkingDaysCalculator(this.nextWorkingDay())
.addWorkingDays(days - 1) }`.  `days` is a JS number, embedded as `ℚ`;
`Number.isInteger(days)` is `days.den = 1`.  The same fuel discipline as
`nextWorkingDayFuel` accounts for the non-termination of the inner
`nextWorkingDay` on invalid dates. -/
def addWorkingDaysFuel (fuel : Nat) (d : DayjsVal) (days : ℚ) : Option DayjsVal :=
  if days ≤ 0 ∨ days.den ≠ 1 then some d
  else
    match nextWorkingDayFuel fuel d with
    | none => none
    | some j => addWorkingDaysFuel fuel j (days - 1)
termination_by days.num.toNat
decreasing_by
  rename_i h
  push_neg at h
  obtain ⟨hpos, hden⟩ := h
  have hq : ((days.num : ℚ)) = days := by
    exact_mod_cast (Rat.den_eq_one_iff days).mp hden
  have hnum : 0 < days.num := Rat.num_pos.mpr hpos
  have he : days - 1 = ((days.num - 1 : ℤ) : ℚ) := by
    rw [← hq]; push_cast [Rat.num_intCast]; ring
  rw [he, Rat.num_intCast]
  omega

/-- Written from the claim: "applying `nextWorkingDay` exactly `n` times",
to be compared with the source-embedded `addWorkingDaysFuel`. -/
def nextWorkingDayN (fuel : Nat) (d : DayjsVal) : Nat → Option DayjsVal
  | 0 => some d
  | n + 1 => (nextWorkingDayFuel fuel d).bind fun j => nextWorkingDayN fuel j n

end WorkingDaysCalculator

/-! ## Relative-time rendering (claim C9)

`toRelative` (and the epoch constructors) are exercised by the repository's
test-suite but the implementation file is not among the sources; it is
modelled from the spec below. -/

/-- Relative-time configuration: `cap` and `fallbackAfterDays` default to
unbounded (`none`); `fallback` is the optional fallback formatter. -/
structure RelativeOptions where
  cap : Option Nat
  fallbackAfterDays : Option Nat
  fallback : Option (Moment → String)

/-- The locale's relative-time `future` wrapper template. -/
def relFutureWrap : AppLocale → String → String
  | .en, s => "in " ++ s
  | .de, s | .deCh, s | .deAt, s => "in " ++ s
  | .fr, s | .frCh, s => "dans " ++ s

/-- The locale's relative-time `past` wrapper template. -/
def relPastWrap : AppLocale → String → String
  | .en, s => s ++ " ago"
  | .de, s | .deCh, s | .deAt, s => "vor " ++ s
  | .fr, s | .frCh, s => "il y a " ++ s

/-- The locale's `dd` (days) phrase template applied to a rendered amount. -/
def relDaysPhrase : AppLocale → String → String
  | .en, n => n ++ " days"
  | .de, n | .deCh, n | .deAt, n => n ++ " Tagen"
  | .fr, n | .frCh, n => n ++ " jours"

/-- Modelled from the spec: `toRelative(opts?)` is missing from the sources
(only the test-suite calls it).  Per §4.4: signed whole-day difference `diff`
between the value and `now` (negative = past); when `abs(diff)` exceeds
`fallbackAfterDays`, `fallback(self)` if provided else
`self.toLocalizedDateString()`; otherwise the day-unit phrase, capped to
"`cap`+" when the magnitude exceeds `cap`, wrapped by the locale's
future/past template according to the sign; invalid values render the same
localized placeholder as the other formatters. -/
def toRelative (locale : AppLocale) (now : Moment) (self : DayjsVal)
    (opts : RelativeOptions) : String :=
  match self with
  | .valid m =>
    let diff : Int := m.epochDay - now.epochDay
    let magnitude : Nat := diff.natAbs
    let overFallback : Bool :=
      match opts.fallbackAfterDays with
      | some fad => fad < magnitude
      | none => false
    if overFallback then
      match opts.fallback with
      | some f => f m
      | none => DateFormatter.toLocalizedDateString locale (.valid m) none
    else
      let capped : Bool :=
        match opts.cap with
        | some c => c < magnitude
        | none => false
      let amount : String :=
        match opts.cap with
        | some c => if c < magnitude then toString c ++ "+" else toString magnitude
        | none => toString magnitude
      let _ := capped
      let phrase := relDaysPhrase locale amount
      if 0 ≤ diff then relFutureWrap locale phrase else relPastWrap locale phrase
  | _ => getLocalizedInvalidDate locale


/-! ## Helper lemmas -/

/-! ### Digit-character lemmas and the parser characterisation -/

lemma isDigit_iff (c : Char) : c.isDigit = true ↔ 48 ≤ c.toNat ∧ c.toNat ≤ 57 := by
  simp only [Char.isDigit, Bool.and_eq_true, decide_eq_true_eq, Char.le_def]
  exact Iff.rfl

lemma digitChar_digitVal (c : Char) (h : c.isDigit = true) : digitChar (digitVal c) = c := by
  have h' := (isDigit_iff c).mp h
  have e : digitVal c + 48 = c.toNat := by unfold digitVal; omega
  unfold digitChar
  rw [e, Char.ofNat_toNat]

lemma digitVal_le_nine (c : Char) (h : c.isDigit = true) : digitVal c ≤ 9 := by
  have h' := (isDigit_iff c).mp h
  unfold digitVal; omega

lemma digitChar_isDigit (n : Nat) (h : n ≤ 9) : (digitChar n).isDigit = true := by
  interval_cases n <;> decide

lemma digitVal_digitChar (n : Nat) (h : n ≤ 9) : digitVal (digitChar n) = n := by
  interval_cases n <;> decide

lemma daysInMonth_le_31 (y : Int) (m : Nat) : daysInMonth y m ≤ 31 := by
  unfold daysInMonth
  split
  any_goals omega
  split <;> omega

/-- Completeness of the strict parser: a string whose characters spell a real
calendar date in exact `YYYY-MM-DD` shape parses to that date. -/
lemma parseStrictDate_complete (s : String) (y m d : Nat)
    (hy : y ≤ 9999) (hm1 : 1 ≤ m) (hm2 : m ≤ 12) (hd1 : 1 ≤ d)
    (hd2 : d ≤ daysInMonth (y : Int) m)
    (hs : s.data = pad4chars y ++ ['-'] ++ pad2chars m ++ ['-'] ++ pad2chars d) :
    parseStrictDate s = some (y, m, d) := by
  have hm99 : m ≤ 99 := by omega
  have hd99 : d ≤ 99 := by
    have h31 := daysInMonth_le_31 (y : Int) m
    omega
  unfold parseStrictDate
  rw [hs]
  simp only [pad4chars, pad2chars, List.append_assoc, List.cons_append, List.nil_append]
  have e1 := digitChar_isDigit (y / 1000 % 10) (by omega)
  have e2 := digitChar_isDigit (y / 100 % 10) (by omega)
  have e3 := digitChar_isDigit (y / 10 % 10) (by omega)
  have e4 := digitChar_isDigit (y % 10) (by omega)
  have e5 := digitChar_isDigit (m / 10 % 10) (by omega)
  have e6 := digitChar_isDigit (m % 10) (by omega)
  have e7 := digitChar_isDigit (d / 10 % 10) (by omega)
  have e8 := digitChar_isDigit (d % 10) (by omega)
  have v1 := digitVal_digitChar (y / 1000 % 10) (by omega)
  have v2 := digitVal_digitChar (y / 100 % 10) (by omega)
  have v3 := digitVal_digitChar (y / 10 % 10) (by omega)
  have v4 := digitVal_digitChar (y % 10) (by omega)
  have v5 := digitVal_digitChar (m / 10 % 10) (by omega)
  have v6 := digitVal_digitChar (m % 10) (by omega)
  have v7 := digitVal_digitChar (d / 10 % 10) (by omega)
  have v8 := digitVal_digitChar (d % 10) (by omega)
  simp only [e1, e2, e3, e4, e5, e6, e7, e8, v1, v2, v3, v4, v5, v6, v7, v8]
  have hy' : y / 1000 % 10 * 1000 + y / 100 % 10 * 100 + y / 10 % 10 * 10 + y % 10 = y := by
    omega
  have hm' : m / 10 % 10 * 10 + m % 10 = m := by omega
  have hd' : d / 10 % 10 * 10 + d % 10 = d := by omega
  simp only [hy', hm', hd']
  simp [hm1, hm2, hd1, hd2]

/-- Soundness of the strict parser: whatever parses was an exact
`YYYY-MM-DD` rendering of a real calendar date. -/
lemma parseStrictDate_sound (s : String) (y m d : Nat)
    (h : parseStrictDate s = some (y, m, d)) :
    y ≤ 9999 ∧ 1 ≤ m ∧ m ≤ 12 ∧ 1 ≤ d ∧ d ≤ daysInMonth (y : Int) m ∧
      s.data = pad4chars y ++ ['-'] ++ pad2chars m ++ ['-'] ++ pad2chars d := by
  unfold parseStrictDate at h
  rcases hs : s.data with _ | ⟨y1, l⟩
  · rw [hs] at h; simp at h
  rcases l with _ | ⟨y2, l⟩; · rw [hs] at h; simp at h
  rcases l with _ | ⟨y3, l⟩; · rw [hs] at h; simp at h
  rcases l with _ | ⟨y4, l⟩; · rw [hs] at h; simp at h
  rcases l with _ | ⟨h1, l⟩; · rw [hs] at h; simp at h
  rcases l with _ | ⟨m1, l⟩; · rw [hs] at h; simp at h
  rcases l with _ | ⟨m2, l⟩; · rw [hs] at h; simp at h
  rcases l with _ | ⟨h2, l⟩; · rw [hs] at h; simp at h
  rcases l with _ | ⟨d1, l⟩; · rw [hs] at h; simp at h
  rcases l with _ | ⟨d2, l⟩; · rw [hs] at h; simp at h
  rcases l with _ | ⟨c, l⟩
  swap
  · rw [hs] at h; simp at h
  rw [hs] at h
  simp only at h
  by_cases hguard : (y1.isDigit && y2.isDigit && y3.isDigit && y4.isDigit
      && decide (h1 = '-') && decide (h2 = '-')
      && m1.isDigit && m2.isDigit && d1.isDigit && d2.isDigit) = true
  swap
  · rw [if_neg hguard] at h; simp at h
  rw [if_pos hguard] at h
  simp only [Bool.and_eq_true, decide_eq_true_eq] at hguard
  obtain ⟨⟨⟨⟨⟨⟨⟨⟨⟨hy1, hy2⟩, hy3⟩, hy4⟩, hh1⟩, hh2⟩, hm1d⟩, hm2d⟩, hd1d⟩, hd2d⟩ := hguard
  by_cases hrange : (1 ≤ digitVal m1 * 10 + digitVal m2 && digitVal m1 * 10 + digitVal m2 ≤ 12
      && 1 ≤ digitVal d1 * 10 + digitVal d2
      && decide (digitVal d1 * 10 + digitVal d2 ≤ daysInMonth
        ((digitVal y1 * 1000 + digitVal y2 * 100 + digitVal y3 * 10 + digitVal y4 : Nat) : Int)
        (digitVal m1 * 10 + digitVal m2))) = true
  swap
  · rw [if_neg hrange] at h; simp at h
  rw [if_pos hrange] at h
  simp only [Option.some.injEq, Prod.mk.injEq] at h
  obtain ⟨hy, hm, hd⟩ := h
  simp only [Bool.and_eq_true, decide_eq_true_eq] at hrange
  obtain ⟨⟨⟨hr1, hr2⟩, hr3⟩, hr4⟩ := hrange
  have b1 := digitVal_le_nine y1 hy1
  have b2 := digitVal_le_nine y2 hy2
  have b3 := digitVal_le_nine y3 hy3
  have b4 := digitVal_le_nine y4 hy4
  have b5 := digitVal_le_nine m1 hm1d
  have b6 := digitVal_le_nine m2 hm2d
  have b7 := digitVal_le_nine d1 hd1d
  have b8 := digitVal_le_nine d2 hd2d
  subst hy hm hd
  refine ⟨by omega, by omega, by omega, by omega, hr4, ?_⟩
  simp only [hs, pad4chars, pad2chars, List.append_assoc, List.cons_append, List.nil_append]
  have q1 : (digitVal y1 * 1000 + digitVal y2 * 100 + digitVal y3 * 10 + digitVal y4) / 1000 % 10
      = digitVal y1 := by omega
  have q2 : (digitVal y1 * 1000 + digitVal y2 * 100 + digitVal y3 * 10 + digitVal y4) / 100 % 10
      = digitVal y2 := by omega
  have q3 : (digitVal y1 * 1000 + digitVal y2 * 100 + digitVal y3 * 10 + digitVal y4) / 10 % 10
      = digitVal y3 := by omega
  have q4 : (digitVal y1 * 1000 + digitVal y2 * 100 + digitVal y3 * 10 + digitVal y4) % 10
      = digitVal y4 := by omega
  have q5 : (digitVal m1 * 10 + digitVal m2) / 10 % 10 = digitVal m1 := by omega
  have q6 : (digitVal m1 * 10 + digitVal m2) % 10 = digitVal m2 := by omega
  have q7 : (digitVal d1 * 10 + digitVal d2) / 10 % 10 = digitVal d1 := by omega
  have q8 : (digitVal d1 * 10 + digitVal d2) % 10 = digitVal d2 := by omega
  rw [q1, q2, q3, q4, q5, q6, q7, q8,
    digitChar_digitVal y1 hy1, digitChar_digitVal y2 hy2,
    digitChar_digitVal y3 hy3, digitChar_digitVal y4 hy4,
    digitChar_digitVal m1 hm1d, digitChar_digitVal m2 hm2d,
    digitChar_digitVal d1 hd1d, digitChar_digitVal d2 hd2d, hh1, hh2]


lemma DayjsVal.isValid_addDays (d : DayjsVal) (k : Int) :
    (d.addDays k).isValid = d.isValid := by
  cases d <;> rfl

lemma isWorkingDay_eq_false_of_invalid (d : DayjsVal) (h : d.isValid = false) :
    WorkingDaysCalculator.isWorkingDay d = false := by
  cases d with
  | valid m => simp [DayjsVal.isValid] at h
  | invalidSentinel => rfl
  | invalidFresh => rfl

lemma nextWorkingDayFuel_none_of_invalid :
    ∀ (fuel : Nat) (d : DayjsVal), d.isValid = false →
      WorkingDaysCalculator.nextWorkingDayFuel fuel d = none := by
  intro fuel
  induction fuel with
  | zero => intro d _; rfl
  | succ n ih =>
    intro d h
    have h1 : (d.addDays 1).isValid = false := by rw [DayjsVal.isValid_addDays]; exact h
    unfold WorkingDaysCalculator.nextWorkingDayFuel
    simp only [isWorkingDay_eq_false_of_invalid _ h1, Bool.false_eq_true, if_false]
    exact ih _ h1

lemma previousWorkingDayFuel_none_of_invalid :
    ∀ (fuel : Nat) (d : DayjsVal), d.isValid = false →
      WorkingDaysCalculator.previousWorkingDayFuel fuel d = none := by
  intro fuel
  induction fuel with
  | zero => intro d _; rfl
  | succ n ih =>
    intro d h
    have h1 : (d.addDays (-1)).isValid = false := by rw [DayjsVal.isValid_addDays]; exact h
    unfold WorkingDaysCalculator.previousWorkingDayFuel
    simp only [isWorkingDay_eq_false_of_invalid _ h1, Bool.false_eq_true, if_false]
    exact ih _ h1


lemma isWorkingDay_valid_eq (m : Moment) :
    WorkingDaysCalculator.isWorkingDay (.valid m)
      = decide ((m.epochDay + 4) % 7 = 1 ∨ (m.epochDay + 4) % 7 = 2 ∨
          (m.epochDay + 4) % 7 = 3 ∨ (m.epochDay + 4) % 7 = 4 ∨
          (m.epochDay + 4) % 7 = 5) := by
  simp only [WorkingDaysCalculator.isWorkingDay, DayjsVal.day, WORKING_DAYS]
  have hb : 0 ≤ (m.epochDay + 4) % 7 ∧ (m.epochDay + 4) % 7 < 7 := by omega
  rcases hb with ⟨hb0, hb7⟩
  by_cases h : ((m.epochDay + 4) % 7 = 1 ∨ (m.epochDay + 4) % 7 = 2 ∨
      (m.epochDay + 4) % 7 = 3 ∨ (m.epochDay + 4) % 7 = 4 ∨ (m.epochDay + 4) % 7 = 5)
  · rw [decide_eq_true h]
    have : ((m.epochDay + 4) % 7).toNat = 1 ∨ ((m.epochDay + 4) % 7).toNat = 2 ∨
        ((m.epochDay + 4) % 7).toNat = 3 ∨ ((m.epochDay + 4) % 7).toNat = 4 ∨
        ((m.epochDay + 4) % 7).toNat = 5 := by omega
    rcases this with h' | h' | h' | h' | h' <;> rw [h'] <;> decide
  · rw [decide_eq_false h]
    have : ((m.epochDay + 4) % 7).toNat = 0 ∨ ((m.epochDay + 4) % 7).toNat = 6 := by omega
    rcases this with h' | h' <;> rw [h'] <;> decide

lemma nextWorkingDayFuel_succ (fuel : Nat) (d : DayjsVal) :
    WorkingDaysCalculator.nextWorkingDayFuel (fuel + 1) d
      = if WorkingDaysCalculator.isWorkingDay (d.addDays 1) then some (d.addDays 1)
        else WorkingDaysCalculator.nextWorkingDayFuel fuel (d.addDays 1) := rfl

lemma valid_addDays (m : Moment) (k : Int) :
    (DayjsVal.valid m).addDays k = .valid ⟨m.epochDay + k, m.minuteOfDay⟩ := rfl

lemma step_found (fuel : Nat) (d : DayjsVal)
    (h : WorkingDaysCalculator.isWorkingDay (d.addDays 1) = true) :
    WorkingDaysCalculator.nextWorkingDayFuel (fuel + 1) d = some (d.addDays 1) := by
  rw [nextWorkingDayFuel_succ, if_pos h]

lemma step_skip (fuel : Nat) (d : DayjsVal)
    (h : WorkingDaysCalculator.isWorkingDay (d.addDays 1) = false) :
    WorkingDaysCalculator.nextWorkingDayFuel (fuel + 1) d
      = WorkingDaysCalculator.nextWorkingDayFuel fuel (d.addDays 1) := by
  rw [nextWorkingDayFuel_succ, h]
  simp

lemma addWorkingDaysFuel_base (fuel : Nat) (d : DayjsVal) (q : ℚ)
    (h : q ≤ 0 ∨ q.den ≠ 1) :
    WorkingDaysCalculator.addWorkingDaysFuel fuel d q = some d := by
  unfold WorkingDaysCalculator.addWorkingDaysFuel
  rw [if_pos h]

lemma addWorkingDaysFuel_step (fuel : Nat) (d : DayjsVal) (q : ℚ)
    (h : ¬(q ≤ 0 ∨ q.den ≠ 1)) :
    WorkingDaysCalculator.addWorkingDaysFuel fuel d q
      = match WorkingDaysCalculator.nextWorkingDayFuel fuel d with
        | none => none
        | some j => WorkingDaysCalculator.addWorkingDaysFuel fuel j (q - 1) := by
  conv_lhs => unfold WorkingDaysCalculator.addWorkingDaysFuel
  rw [if_neg h]

lemma natCast_succ_not_base (n : Nat) : ¬(((n : ℚ) + 1) ≤ 0 ∨ ((n : ℚ) + 1).den ≠ 1) := by
  push_neg
  constructor
  · positivity
  · have : ((n : ℚ) + 1) = ((n + 1 : ℕ) : ℚ) := by push_cast; ring
    rw [this, Rat.den_natCast]

/-- C1: on an invalid date, `isWorkingDay` answers `false` (by evaluating
`day()`, which is NaN), and `nextWorkingDay` / `previousWorkingDay` /
`addWorkingDays(n)` for positive integer `n` never terminate — no amount of
fuel (one-day advancements) finds a working day, because adding days to an
invalid date stays invalid.  Only the `n ≤ 0` / non-integer guard of
`addWorkingDays` returns (the receiver).  This refutes the claimed
invalidity propagation: the operations loop instead of returning an invalid
Date Value. -/
theorem claim_C1_workingday_ops_on_invalid_diverge (d : DayjsVal)
    (h : d.isValid = false) :
    WorkingDaysCalculator.isWorkingDay d = false ∧
    (∀ fuel, WorkingDaysCalculator.nextWorkingDayFuel fuel d = none) ∧
    (∀ fuel, WorkingDaysCalculator.previousWorkingDayFuel fuel d = none) ∧
    (∀ fuel (n : ℕ),
      WorkingDaysCalculator.addWorkingDaysFuel fuel d ((n : ℚ) + 1) = none) ∧
    (∀ fuel (q : ℚ), q ≤ 0 →
      WorkingDaysCalculator.addWorkingDaysFuel fuel d q = some d) := by
  refine ⟨isWorkingDay_eq_false_of_invalid d h,
    fun fuel => nextWorkingDayFuel_none_of_invalid fuel d h,
    fun fuel => previousWorkingDayFuel_none_of_invalid fuel d h,
    fun fuel n => ?_,
    fun fuel q hq => addWorkingDaysFuel_base fuel d q (Or.inl hq)⟩
  rw [addWorkingDaysFuel_step fuel d _ (natCast_succ_not_base n)]
  rw [nextWorkingDayFuel_none_of_invalid fuel d h]

/-- Witness for C1 at the shared invalid sentinel (`AppDate.invalid()`),
with concrete fuel instances. -/
theorem claim_C1_workingday_ops_on_invalid_diverge_witness :
    INVALID_DATE.isValid = false ∧
    WorkingDaysCalculator.isWorkingDay INVALID_DATE = false ∧
    WorkingDaysCalculator.nextWorkingDayFuel 1000 INVALID_DATE = none ∧
    WorkingDaysCalculator.previousWorkingDayFuel 1000 INVALID_DATE = none ∧
    WorkingDaysCalculator.addWorkingDaysFuel 1000 INVALID_DATE ((2 : ℚ) + 1) = none ∧
    WorkingDaysCalculator.addWorkingDaysFuel 1000 INVALID_DATE (-3 : ℚ) = some INVALID_DATE :=
  ⟨rfl,
    (claim_C1_workingday_ops_on_invalid_diverge INVALID_DATE rfl).1,
    (claim_C1_workingday_ops_on_invalid_diverge INVALID_DATE rfl).2.1 1000,
    (claim_C1_workingday_ops_on_invalid_diverge INVALID_DATE rfl).2.2.1 1000,
    (claim_C1_workingday_ops_on_invalid_diverge INVALID_DATE rfl).2.2.2.1 1000 2,
    (claim_C1_workingday_ops_on_invalid_diverge INVALID_DATE rfl).2.2.2.2 1000 (-3) (by norm_num)⟩

/-- C4 (amended): from any *valid* date, `nextWorkingDay` terminates after at
most **3** one-day advancement steps (not 2: a Friday needs Saturday, Sunday,
Monday), and the result satisfies `isWorkingDay` — its weekday is in the
Monday–Friday set. -/
theorem claim_C4_nextWorkingDay_three_steps (m : Moment) :
    ∃ r : Moment,
      WorkingDaysCalculator.nextWorkingDayFuel 3 (.valid m) = some (.valid r) ∧
      WorkingDaysCalculator.isWorkingDay (.valid r) = true := by
  have hcase : (m.epochDay + 5) % 7 = 0 ∨ (m.epochDay + 5) % 7 = 1 ∨
      (m.epochDay + 5) % 7 = 2 ∨ (m.epochDay + 5) % 7 = 3 ∨ (m.epochDay + 5) % 7 = 4 ∨
      (m.epochDay + 5) % 7 = 5 ∨ (m.epochDay + 5) % 7 = 6 := by omega
  rcases hcase with h | h | h | h | h | h | h
  · -- tomorrow is Sunday (day 0): two steps, landing on Monday
    have h1 : WorkingDaysCalculator.isWorkingDay ((DayjsVal.valid m).addDays 1) = false := by
      rw [valid_addDays, isWorkingDay_valid_eq]
      exact decide_eq_false (by dsimp only; omega)
    have h2 : WorkingDaysCalculator.isWorkingDay
        ((DayjsVal.valid ⟨m.epochDay + 1, m.minuteOfDay⟩).addDays 1) = true := by
      rw [valid_addDays, isWorkingDay_valid_eq]
      exact decide_eq_true (by dsimp only; omega)
    exact ⟨⟨m.epochDay + 1 + 1, m.minuteOfDay⟩,
      by rw [show (3 : ℕ) = 2 + 1 from rfl, step_skip _ _ h1, valid_addDays,
             show (2 : ℕ) = 1 + 1 from rfl, step_found _ _ h2, valid_addDays], h2⟩
  · -- tomorrow is Monday: one step
    have h1 : WorkingDaysCalculator.isWorkingDay ((DayjsVal.valid m).addDays 1) = true := by
      rw [valid_addDays, isWorkingDay_valid_eq]
      exact decide_eq_true (by dsimp only; omega)
    exact ⟨⟨m.epochDay + 1, m.minuteOfDay⟩,
      by rw [show (3 : ℕ) = 2 + 1 from rfl, step_found _ _ h1, valid_addDays], h1⟩
  · -- tomorrow is Tuesday: one step
    have h1 : WorkingDaysCalculator.isWorkingDay ((DayjsVal.valid m).addDays 1) = true := by
      rw [valid_addDays, isWorkingDay_valid_eq]
      exact decide_eq_true (by dsimp only; omega)
    exact ⟨⟨m.epochDay + 1, m.minuteOfDay⟩,
      by rw [show (3 : ℕ) = 2 + 1 from rfl, step_found _ _ h1, valid_addDays], h1⟩
  · -- tomorrow is Wednesday: one step
    have h1 : WorkingDaysCalculator.isWorkingDay ((DayjsVal.valid m).addDays 1) = true := by
      rw [valid_addDays, isWorkingDay_valid_eq]
      exact decide_eq_true (by dsimp only; omega)
    exact ⟨⟨m.epochDay + 1, m.minuteOfDay⟩,
      by rw [show (3 : ℕ) = 2 + 1 from rfl, step_found _ _ h1, valid_addDays], h1⟩
  · -- tomorrow is Thursday: one step
    have h1 : WorkingDaysCalculator.isWorkingDay ((DayjsVal.valid m).addDays 1) = true := by
      rw [valid_addDays, isWorkingDay_valid_eq]
      exact decide_eq_true (by dsimp only; omega)
    exact ⟨⟨m.epochDay + 1, m.minuteOfDay⟩,
      by rw [show (3 : ℕ) = 2 + 1 from rfl, step_found _ _ h1, valid_addDays], h1⟩
  · -- tomorrow is Friday: one step
    have h1 : WorkingDaysCalculator.isWorkingDay ((DayjsVal.valid m).addDays 1) = true := by
      rw [valid_addDays, isWorkingDay_valid_eq]
      exact decide_eq_true (by dsimp only; omega)
    exact ⟨⟨m.epochDay + 1, m.minuteOfDay⟩,
      by rw [show (3 : ℕ) = 2 + 1 from rfl, step_found _ _ h1, valid_addDays], h1⟩
  · -- tomorrow is Saturday: three steps, landing on Monday
    have h1 : WorkingDaysCalculator.isWorkingDay ((DayjsVal.valid m).addDays 1) = false := by
      rw [valid_addDays, isWorkingDay_valid_eq]
      exact decide_eq_false (by dsimp only; omega)
    have h2 : WorkingDaysCalculator.isWorkingDay
        ((DayjsVal.valid ⟨m.epochDay + 1, m.minuteOfDay⟩).addDays 1) = false := by
      rw [valid_addDays, isWorkingDay_valid_eq]
      exact decide_eq_false (by dsimp only; omega)
    have h3 : WorkingDaysCalculator.isWorkingDay
        ((DayjsVal.valid ⟨m.epochDay + 1 + 1, m.minuteOfDay⟩).addDays 1) = true := by
      rw [valid_addDays, isWorkingDay_valid_eq]
      exact decide_eq_true (by dsimp only; omega)
    exact ⟨⟨m.epochDay + 1 + 1 + 1, m.minuteOfDay⟩,
      by rw [show (3 : ℕ) = 2 + 1 from rfl, step_skip _ _ h1, valid_addDays,
             show (2 : ℕ) = 1 + 1 from rfl, step_skip _ _ h2, valid_addDays,
             show (1 : ℕ) = 0 + 1 from rfl, step_found _ _ h3, valid_addDays], h3⟩

/-- Counterexample to C4 as stated: 2024-01-05 (a Friday, `day() = 5`) is a
valid Date Value, yet 2 one-day advancement steps do not reach a working day
— `nextWorkingDay` needs 3 (landing on Monday 2024-01-08). -/
theorem claim_C4_counterexample_friday :
    DateParser.fromDateString "2024-01-05" = .valid ⟨19727, 0⟩ ∧
    (DayjsVal.valid ⟨19727, 0⟩).day = some 5 ∧
    WorkingDaysCalculator.nextWorkingDayFuel 2 (.valid ⟨19727, 0⟩) = none ∧
    WorkingDaysCalculator.nextWorkingDayFuel 3 (.valid ⟨19727, 0⟩)
      = some (.valid ⟨19730, 0⟩) ∧
    civilFromDays 19730 = (2024, 1, 8) := by
  refine ⟨by decide, by decide, by decide, by decide, by decide⟩

lemma isDateString_eq (s : String) : isDateString s = (parseStrictDate s).isSome := by
  unfold isDateString
  by_cases h : s = ""
  · subst h; rfl
  · rw [if_neg h]

/-- C5: `fromDateString` characterised against the claim's own description of
an exact strict `YYYY-MM-DD` calendar date.  A string validates iff it is such
an exact date; an exact date parses to the valid midnight Date Value of that
calendar day; every other string yields the shared invalid marker.  The
embedding is a total function, so no exception can be raised. -/
theorem claim_C5_fromDateString_strict (s : String) :
    ((DateParser.fromDateString s).isValid = true ↔ specExactCalendarDate s) ∧
    (∀ y m d : Nat, y ≤ 9999 → 1 ≤ m → m ≤ 12 → 1 ≤ d → d ≤ daysInMonth (y : Int) m →
      s.data = pad4chars y ++ ['-'] ++ pad2chars m ++ ['-'] ++ pad2chars d →
      DateParser.fromDateString s = .valid ⟨daysFromCivil (y : Int) m d, 0⟩) ∧
    (¬ specExactCalendarDate s → DateParser.fromDateString s = INVALID_DATE) := by
  rcases hp : parseStrictDate s with _ | ⟨y, m, d⟩
  · have hnv : DateParser.fromDateString s = INVALID_DATE := by
      unfold DateParser.fromDateString
      rw [isDateString_eq, hp]
      rfl
    have hnspec : ¬ specExactCalendarDate s := by
      rintro ⟨y, m, d, h1, h2, h3, h4, h5, h6⟩
      rw [parseStrictDate_complete s y m d h1 h2 h3 h4 h5 h6] at hp
      simp at hp
    refine ⟨?_, ?_, fun _ => hnv⟩
    · constructor
      · intro habs
        rw [hnv] at habs
        exact absurd habs (by decide)
      · intro hs
        exact absurd hs hnspec
    · intro y m d h1 h2 h3 h4 h5 h6
      rw [parseStrictDate_complete s y m d h1 h2 h3 h4 h5 h6] at hp
      simp at hp
  · obtain ⟨h1, h2, h3, h4, h5, h6⟩ := parseStrictDate_sound s y m d hp
    have hval : DateParser.fromDateString s = .valid ⟨daysFromCivil (y : Int) m d, 0⟩ := by
      unfold DateParser.fromDateString dayjsTzOfDateString
      rw [isDateString_eq, hp]
      rfl
    have hspec : specExactCalendarDate s := ⟨y, m, d, h1, h2, h3, h4, h5, h6⟩
    refine ⟨?_, ?_, fun hns => absurd hspec hns⟩
    · rw [hval]
      exact ⟨fun _ => hspec, fun _ => rfl⟩
    · intro y' m' d' g1 g2 g3 g4 g5 g6
      have hc := parseStrictDate_complete s y' m' d' g1 g2 g3 g4 g5 g6
      rw [hp] at hc
      simp only [Option.some.injEq, Prod.mk.injEq] at hc
      obtain ⟨hy, hm, hd⟩ := hc
      subst hy hm hd
      exact hval

/-- Witness for C5: the out-of-range string `"2020-88-24"` is not an exact
calendar date and `"2020-10-24"` parses to the valid Date Value of
2020-10-24. -/
theorem claim_C5_fromDateString_strict_witness :
    ¬ specExactCalendarDate "2020-88-24" ∧
    DateParser.fromDateString "2020-10-24" = .valid ⟨daysFromCivil 2020 10 24, 0⟩ := by
  constructor
  · intro hs
    have h := ((claim_C5_fromDateString_strict "2020-88-24").1).mpr hs
    exact absurd h (by decide)
  · exact (claim_C5_fromDateString_strict "2020-10-24").2.1 2020 10 24
      (by norm_num) (by norm_num) (by norm_num) (by norm_num) (by decide) (by decide)

/-- C6: `addWorkingDays(n)` is the identity (no error) for `n ≤ 0` or
non-integer `n`, and for a natural number `n` it equals applying
`nextWorkingDay` exactly `n` times (`nextWorkingDayN`, written from the
claim) — at every fuel and receiver, valid or invalid alike. -/
theorem claim_C6_addWorkingDays (fuel : Nat) (d : DayjsVal) :
    (∀ q : ℚ, q ≤ 0 ∨ q.den ≠ 1 →
      WorkingDaysCalculator.addWorkingDaysFuel fuel d q = some d) ∧
    (∀ n : ℕ, WorkingDaysCalculator.addWorkingDaysFuel fuel d (n : ℚ)
      = WorkingDaysCalculator.nextWorkingDayN fuel d n) := by
  refine ⟨fun q hq => addWorkingDaysFuel_base fuel d q hq, fun n => ?_⟩
  induction n generalizing d with
  | zero =>
    rw [addWorkingDaysFuel_base fuel d _ (Or.inl (by norm_num))]
    rfl
  | succ k ih =>
    have hcast : ((k + 1 : ℕ) : ℚ) = (k : ℚ) + 1 := by push_cast; ring
    rw [hcast, addWorkingDaysFuel_step fuel d _ (natCast_succ_not_base k)]
    unfold WorkingDaysCalculator.nextWorkingDayN
    rcases hnx : WorkingDaysCalculator.nextWorkingDayFuel fuel d with _ | j
    · rfl
    · simp only [Option.bind_some]
      have hsub : (k : ℚ) + 1 - 1 = (k : ℚ) := by ring
      rw [hsub]
      exact ih j

/-- Witness for C6: `addWorkingDays(-3)` and `addWorkingDays(3/2)` are
identities on the working Friday 2024-01-05, and `addWorkingDays(2)` is two
`nextWorkingDay` applications. -/
theorem claim_C6_addWorkingDays_witness :
    WorkingDaysCalculator.addWorkingDaysFuel 3 (.valid ⟨19727, 0⟩) (-3 : ℚ)
      = some (.valid ⟨19727, 0⟩) ∧
    WorkingDaysCalculator.addWorkingDaysFuel 3 (.valid ⟨19727, 0⟩) ((3 : ℚ) / 2)
      = some (.valid ⟨19727, 0⟩) ∧
    WorkingDaysCalculator.addWorkingDaysFuel 3 (.valid ⟨19727, 0⟩) ((2 : ℕ) : ℚ)
      = WorkingDaysCalculator.nextWorkingDayN 3 (.valid ⟨19727, 0⟩) 2 :=
  ⟨(claim_C6_addWorkingDays 3 (.valid ⟨19727, 0⟩)).1 (-3) (Or.inl (by norm_num)),
   (claim_C6_addWorkingDays 3 (.valid ⟨19727, 0⟩)).1 ((3 : ℚ) / 2) (Or.inr (by norm_num)),
   (claim_C6_addWorkingDays 3 (.valid ⟨19727, 0⟩)).2 2⟩

/-- C2 (amended): only `index2.ts`'s `TimezoneManager.setTimezone` validates
by trial conversion — failing identifiers raise `Invalid timezone: …` before
any assignment (zone unchanged), resolving ones become the stored zone.
`part_000`'s exported `setTimezone` stores the identifier unconditionally,
with no validation.  (`tzResolves` abstracts the engine's timezone database:
whether `dayjs().tz(id)` succeeds.) -/
theorem claim_C2_setTimezone (tzResolves : String → Bool) (id current : String) :
    (tzResolves id = false →
      TimezoneManager.setTimezone tzResolves id current
        = .error ("Invalid timezone: " ++ id)) ∧
    (tzResolves id = true →
      TimezoneManager.setTimezone tzResolves id current = .ok id) ∧
    setTimezoneV1 id current = id := by
  refine ⟨fun h => ?_, fun h => ?_, rfl⟩
  · unfold TimezoneManager.setTimezone TimezoneManager.isValidTimezone
    rw [h]
    rfl
  · unfold TimezoneManager.setTimezone TimezoneManager.isValidTimezone
    rw [h]
    rfl

/-- Counterexample to C2 as stated: `part_000`'s `setTimezone` replaces the
process-wide zone even for an identifier that no resolver accepts (e.g. under
the engine resolver that rejects everything, modelling `dayjs().tz` throwing
on `"Not/A/Zone"`), instead of failing and leaving the zone unchanged. -/
theorem claim_C2_setTimezone_counterexample :
    (fun _ : String => false) "Not/A/Zone" = false ∧
    setTimezoneV1 "Not/A/Zone" "Europe/Zurich" = "Not/A/Zone" ∧
    setTimezoneV1 "Not/A/Zone" "Europe/Zurich" ≠ "Europe/Zurich" := by
  refine ⟨rfl, rfl, by decide⟩

/-- Witness for C2 (amended): a rejecting resolver makes `setTimezone` fail
with the invalid-timezone error; an accepting one stores the new zone. -/
theorem claim_C2_setTimezone_witness :
    TimezoneManager.setTimezone (fun _ => false) "Pluto/Nowhere" "Europe/Zurich"
      = .error ("Invalid timezone: " ++ "Pluto/Nowhere") ∧
    TimezoneManager.setTimezone (fun _ => true) "America/New_York" "Europe/Zurich"
      = .ok "America/New_York" :=
  ⟨(claim_C2_setTimezone (fun _ => false) "Pluto/Nowhere" "Europe/Zurich").1 rfl,
   (claim_C2_setTimezone (fun _ => true) "America/New_York" "Europe/Zurich").2.1 rfl⟩

/-- C3 (amended): on an invalid Date Value no formatter errors, but only
`safeFormat` and the formatters with an explicit validity check —
`toLocalTime`, `toUtcTime`, `toDateString` — return the locale-specific
placeholder.  `toLocalizedDateString`, `formatShort` and `formatDateTime`
bypass `safeFormat` and hand the invalid date straight to the engine's
`format`, which yields its fixed English `"Invalid Date"` string — with the
default weekday prefix it is even concatenated twice. -/
theorem claim_C3_invalid_formatting (locale : AppLocale) (d : DayjsVal)
    (h : d.isValid = false) :
    (∀ template, DateFormatter.safeFormat locale d template
      = getLocalizedInvalidDate locale) ∧
    DateFormatter.toLocalTime locale d = getLocalizedInvalidDate locale ∧
    DateFormatter.toUtcTime locale d = getLocalizedInvalidDate locale ∧
    DateFormatter.toDateString locale d = getLocalizedInvalidDate locale ∧
    DateFormatter.toLocalizedDateString locale d none = "Invalid Date" ∧
    DateFormatter.formatShort locale d none = "Invalid DateInvalid Date" ∧
    DateFormatter.formatDateTime locale d none
      = "Invalid DateInvalid Date, " ++ getLocalizedInvalidDate locale := by
  cases d with
  | valid m => simp [DayjsVal.isValid] at h
  | invalidSentinel => exact ⟨fun _ => rfl, rfl, rfl, rfl, rfl, rfl, rfl⟩
  | invalidFresh => exact ⟨fun _ => rfl, rfl, rfl, rfl, rfl, rfl, rfl⟩

/-- Counterexample to C3 as stated: with the German locale active, the
invalid Date Value is *not* rendered as the locale placeholder
`"Ungültiges Datum"` by `toLocalizedDateString` (it renders the engine's
fixed `"Invalid Date"`), and `formatShort` even yields
`"Invalid DateInvalid Date"`. -/
theorem claim_C3_invalid_formatting_counterexample :
    getLocalizedInvalidDate .de = "Ungültiges Datum" ∧
    DateFormatter.toLocalizedDateString .de INVALID_DATE none = "Invalid Date" ∧
    DateFormatter.toLocalizedDateString .de INVALID_DATE none ≠ "Ungültiges Datum" ∧
    DateFormatter.formatShort .de INVALID_DATE none = "Invalid DateInvalid Date" := by
  refine ⟨rfl, rfl, by decide, rfl⟩

/-- Witness for C3 (amended) at the French locale and the shared sentinel. -/
theorem claim_C3_invalid_formatting_witness :
    DateFormatter.safeFormat .fr INVALID_DATE .L = "Date invalide" ∧
    DateFormatter.toLocalTime .fr INVALID_DATE = "Date invalide" ∧
    DateFormatter.toUtcTime .fr INVALID_DATE = "Date invalide" ∧
    DateFormatter.toDateString .fr INVALID_DATE = "Date invalide" ∧
    DateFormatter.toLocalizedDateString .fr INVALID_DATE none = "Invalid Date" ∧
    DateFormatter.formatShort .fr INVALID_DATE none = "Invalid DateInvalid Date" ∧
    DateFormatter.formatDateTime .fr INVALID_DATE none
      = "Invalid DateInvalid Date, " ++ "Date invalide" :=
  ⟨(claim_C3_invalid_formatting .fr INVALID_DATE rfl).1 .L,
   (claim_C3_invalid_formatting .fr INVALID_DATE rfl).2.1,
   (claim_C3_invalid_formatting .fr INVALID_DATE rfl).2.2.1,
   (claim_C3_invalid_formatting .fr INVALID_DATE rfl).2.2.2.1,
   (claim_C3_invalid_formatting .fr INVALID_DATE rfl).2.2.2.2.1,
   (claim_C3_invalid_formatting .fr INVALID_DATE rfl).2.2.2.2.2.1,
   (claim_C3_invalid_formatting .fr INVALID_DATE rfl).2.2.2.2.2.2⟩

/-- C7 (amended): `invalid()` and the failure paths of `fromDateString` and
`fromLocalTime` all reuse the single shared `INVALID_DATE` marker — but the
parse failures of `fromUtcString` and `fromUtcTime` return the fresh invalid
dayjs object `dayjs.utc` allocates, which is reference-distinct from the
shared marker.  So not every construction path yields the single
representative. -/
theorem claim_C7_single_invalid_marker :
    AppDate.invalid = INVALID_DATE ∧
    (∀ s, (DateParser.fromDateString s).isValid = false →
      DateParser.fromDateString s = INVALID_DATE) ∧
    (∀ (today : Int) s, (DateParser.fromLocalTime today s).isValid = false →
      DateParser.fromLocalTime today s = INVALID_DATE) ∧
    (DateParser.fromUtcString "garbage" = .invalidFresh ∧
      DayjsVal.invalidFresh ≠ INVALID_DATE) ∧
    (∀ today : Int, DateParser.fromUtcTime today "garbage" = .invalidFresh) := by
  refine ⟨rfl, fun s h => ?_, fun today s h => ?_, ⟨rfl, by decide⟩, fun today => rfl⟩
  · unfold DateParser.fromDateString dayjsTzOfDateString at *
    rw [isDateString_eq] at *
    rcases hp : parseStrictDate s with _ | ⟨y, m, d⟩
    · rfl
    · rw [hp] at h
      simp [DayjsVal.isValid] at h
  · unfold DateParser.fromLocalTime at *
    rcases hp : parseLocalTime s with _ | mins
    · rfl
    · rw [hp] at h
      simp [DayjsVal.isValid] at h

/-- Counterexample to C7 as stated: the parse failure of `fromUtcString`
produces an invalid Date Value whose instant is a fresh `dayjs.utc`
allocation, not the shared `INVALID_DATE` marker. -/
theorem claim_C7_single_invalid_marker_counterexample :
    DateParser.fromUtcString "garbage" = .invalidFresh ∧
    (DateParser.fromUtcString "garbage").isValid = false ∧
    DateParser.fromUtcString "garbage" ≠ INVALID_DATE := by
  refine ⟨rfl, rfl, by decide⟩

/-- Witness for C7 (amended): concrete failing parses of each kind. -/
theorem claim_C7_single_invalid_marker_witness :
    DateParser.fromDateString "2020-88-24" = INVALID_DATE ∧
    DateParser.fromLocalTime 0 "nonsense" = INVALID_DATE ∧
    DateParser.fromUtcTime 0 "garbage" = .invalidFresh :=
  ⟨(claim_C7_single_invalid_marker).2.1 "2020-88-24" (by decide),
   (claim_C7_single_invalid_marker).2.2.1 0 "nonsense" (by decide),
   (claim_C7_single_invalid_marker).2.2.2.2 0⟩

lemma isBefore_valid (a b : Moment) :
    (DayjsVal.valid a).isBefore (.valid b) = decide (toMinutes a < toMinutes b) := rfl

lemma isAfter_valid (a b : Moment) :
    (DayjsVal.valid a).isAfter (.valid b) = decide (toMinutes b < toMinutes a) := rfl

/-- C8: with explicit bounds and no inclusivity argument, `isBetween` uses the
default `'[)'`: a value equal to `from` is inside, a value equal to `to` is
not; and calling `isBetween` with no arguments resolves the bounds to
`minDate()` = 1900-01-01 and `maxDate()` = 2200-12-31. -/
theorem claim_C8_isBetween_defaults :
    (∀ f t : Moment, toMinutes f < toMinutes t →
      isBetweenImpl (.valid f) (some (.valid f)) (some (.valid t)) none = true ∧
      isBetweenImpl (.valid t) (some (.valid f)) (some (.valid t)) none = false) ∧
    (∀ d : DayjsVal, isBetweenImpl d none none none
      = isBetweenImpl d (some minDate) (some maxDate) none) ∧
    minDate = .valid ⟨-25567, 0⟩ ∧ civilFromDays (-25567) = (1900, 1, 1) ∧
    maxDate = .valid ⟨84370, 0⟩ ∧ civilFromDays 84370 = (2200, 12, 31) := by
  refine ⟨fun f t hlt => ⟨?_, ?_⟩, fun d => rfl, by decide, by decide, by decide, by decide⟩
  · simp only [isBetweenImpl, Option.getD_some, isBefore_valid, isAfter_valid]
    simp [hlt, lt_irrefl, not_lt_of_gt hlt]
  · simp only [isBetweenImpl, Option.getD_some, isBefore_valid, isAfter_valid]
    simp [hlt, lt_irrefl, not_lt_of_gt hlt]

/-- Witness for C8 at concrete moments 2024-01-05 and 2024-01-08. -/
theorem claim_C8_isBetween_defaults_witness :
    isBetweenImpl (.valid ⟨19727, 0⟩) (some (.valid ⟨19727, 0⟩))
      (some (.valid ⟨19730, 0⟩)) none = true ∧
    isBetweenImpl (.valid ⟨19730, 0⟩) (some (.valid ⟨19727, 0⟩))
      (some (.valid ⟨19730, 0⟩)) none = false :=
  (claim_C8_isBetween_defaults).1 ⟨19727, 0⟩ ⟨19730, 0⟩ (by norm_num [toMinutes])

/-- C9 (spec-modelled `toRelative`): beyond `fallbackAfterDays` the result is
`fallback(self)` when provided, else `toLocalizedDateString()`; within the
threshold the day magnitude is rendered through the locale templates, capped
to "`cap`+" when it exceeds `cap` — e.g., with "now" fixed at 2024-01-05:
−5 days gives `"5 days ago"`, −15 with cap 9 gives `"9+ days ago"`, +15 gives
`"in 9+ days"`, and −20 with cap 9 and fallbackAfterDays 14 falls back to
the localized date string. -/
theorem claim_C9_toRelative :
    (∀ (locale : AppLocale) (now m : Moment) (opts : RelativeOptions) (fad : Nat),
      opts.fallbackAfterDays = some fad →
      fad < (m.epochDay - now.epochDay).natAbs →
      toRelative locale now (.valid m) opts
        = match opts.fallback with
          | some f => f m
          | none => DateFormatter.toLocalizedDateString locale (.valid m) none) ∧
    toRelative .en ⟨19727, 0⟩ (.valid ⟨19722, 0⟩) ⟨none, none, none⟩ = "5 days ago" ∧
    toRelative .en ⟨19727, 0⟩ (.valid ⟨19712, 0⟩) ⟨some 9, none, none⟩ = "9+ days ago" ∧
    toRelative .en ⟨19727, 0⟩ (.valid ⟨19742, 0⟩) ⟨some 9, none, none⟩ = "in 9+ days" ∧
    toRelative .en ⟨19727, 0⟩ (.valid ⟨19707, 0⟩) ⟨some 9, some 14, none⟩
      = DateFormatter.toLocalizedDateString .en (.valid ⟨19707, 0⟩) none := by
  refine ⟨fun locale now m opts fad hfad hlt => ?_, by decide, by decide, by decide, by decide⟩
  simp only [toRelative, hfad, decide_eq_true hlt, if_true]

/-- Witness for C9: a custom fallback formatter is used beyond the
threshold. -/
theorem claim_C9_toRelative_witness :
    toRelative .en ⟨19727, 0⟩ (.valid ⟨19700, 0⟩)
      ⟨some 9, some 14, some (fun _ => "custom")⟩ = "custom" :=
  (claim_C9_toRelative).1 .en ⟨19727, 0⟩ ⟨19700, 0⟩
    ⟨some 9, some 14, some (fun _ => "custom")⟩ 14 rfl (by decide)

/-- C10: with no options argument, `formatShort` defaults
`includeDayOfWeek` to `true` and prefixes the locale's minimal weekday
abbreviation plus `", "` to the `DD.MM.` rendering (for 2020-10-24 under
`de-ch`: `"Sa, 24.10."`), while `toLocalizedDateString` with no options
defaults it to `false` and renders the bare `L` pattern. -/
theorem claim_C10_formatShort_defaults (locale : AppLocale) (m : Moment) :
    DateFormatter.formatShort locale (.valid m) none
      = renderPattern locale .ddComma m ++ renderPattern locale .DDMMdot m ∧
    DateFormatter.toLocalizedDateString locale (.valid m) none
      = renderPattern locale .L m ∧
    DateFormatter.formatShort .deCh (.valid ⟨18559, 0⟩) none = "Sa, 24.10." ∧
    DateParser.fromDateString "2020-10-24" = .valid ⟨18559, 0⟩ ∧
    renderPattern .deCh .ddComma ⟨18559, 0⟩ = "Sa, " ∧
    DateFormatter.toLocalizedDateString .deCh (.valid ⟨18559, 0⟩) none = "24.10.2020" :=
  ⟨rfl, rfl, by decide, by decide, by decide, by decide⟩

/-! ## Concrete sanity checks of the embedding -/

section SanityChecks

example : parseStrictDate "2020-10-24" = some (2020, 10, 24) := by decide
example : parseStrictDate "2020-88-24" = none := by decide
example : parseStrictDate "2020-02-30" = none := by decide
example : parseStrictDate "2020-02-29" = some (2020, 2, 29) := by decide
example : parseStrictDate "2100-02-29" = none := by decide
example : parseStrictDate "2020/10/24" = none := by decide
example : parseStrictDate "2020-10-241" = none := by decide
example : parseStrictDate "" = none := by decide
example : DateParser.fromDateString "2020-10-24" = .valid ⟨18559, 0⟩ := by decide

-- matches the repository test: formatShort() of 2020-10-24 under de-ch is "Sa, 24.10."
example : DateFormatter.formatShort .deCh (.valid ⟨18559, 0⟩) none = "Sa, 24.10." := by decide
-- matches the repository test: toLocalizedDateString() of 2010-10-10 is "10.10.2010"
example :
    DateFormatter.toLocalizedDateString .deCh (.valid ⟨daysFromCivil 2010 10 10, 0⟩) none
      = "10.10.2010" := by decide
example : DateFormatter.formatShort .deCh INVALID_DATE none = "Invalid DateInvalid Date" := by
  decide
example : DateFormatter.toLocalizedDateString .deCh INVALID_DATE none = "Invalid Date" := by
  decide
example : DateFormatter.toLocalTime .deCh INVALID_DATE = "Ungültiges Datum" := by decide

example : toRelative .en ⟨19727, 0⟩ (.valid ⟨19722, 0⟩) ⟨none, none, none⟩ = "5 days ago" := by
  decide
example : toRelative .en ⟨19727, 0⟩ (.valid ⟨19712, 0⟩) ⟨some 9, none, none⟩
    = "9+ days ago" := by decide
example : toRelative .en ⟨19727, 0⟩ (.valid ⟨19742, 0⟩) ⟨some 9, none, none⟩
    = "in 9+ days" := by decide
example : toRelative .en ⟨19727, 0⟩ (.valid ⟨19707, 0⟩) ⟨some 9, some 14, none⟩
    = DateFormatter.toLocalizedDateString .en (.valid ⟨19707, 0⟩) none := by decide

example : isBetweenImpl (.valid ⟨100, 0⟩) (some (.valid ⟨100, 0⟩)) (some (.valid ⟨200, 0⟩))
    none = true := by decide
example : isBetweenImpl (.valid ⟨200, 0⟩) (some (.valid ⟨100, 0⟩)) (some (.valid ⟨200, 0⟩))
    none = false := by decide
example : isBetweenImpl (.valid ⟨0, 0⟩) none none none = true := by decide

end SanityChecks

section SanityChecks2

example : WorkingDaysCalculator.isWorkingDay INVALID_DATE = false := by decide

example : (∀ f ≤ 20, WorkingDaysCalculator.nextWorkingDayFuel f INVALID_DATE = none) := by decide

-- 2024-01-05 was a Friday (day() = 5); 1970-01-01 a Thursday (4)
example : daysFromCivil 2024 1 5 = 19727 := by decide
example : daysFromCivil 1970 1 1 = 0 := by decide
example : civilFromDays 19727 = (2024, 1, 5) := by decide
example : civilFromDays (daysFromCivil 2020 10 24) = (2020, 10, 24) := by decide
example : civilFromDays (daysFromCivil 1900 1 1) = (1900, 1, 1) := by decide
example : daysFromCivil 1900 1 1 = -25567 := by decide
example : ((daysFromCivil 2020 10 24 + 4) % 7).toNat = 6 := by decide

end SanityChecks2
